import Mathlib

/-!
Verification of the go-rest-assured stubbing engine and client library.

The data model (`ExpectedCall`, `Call`, `Callback`), the client-side request
construction (`Client.Given`, path sanitization) and the conversion helper
`convertExpectedCallToCall` are embedded directly from the Go sources
(`pkg/assured/client.go`, `pkg/assured/utils.go`, and the file defining
`ExpectedCall`).  The matching/dispatch engine (`AssuredEndpoints` with its
`ExpectedCallStore` and `CallStore`) is not present in the sources, only its
tests are; those parts are modelled from the specification, as marked on each
definition.  Go maps are modelled as association lists over `String` keys;
a `nil` slice / absent key and Go runtime panics are modelled explicitly
(`Option`, with `none` standing for a panic where one can occur).
-/

namespace GoRestAssured

deriving instance DecidableEq for Except

/-- Callback template, from the repository's `Callback` struct as used by
`client.go` (fields Target, Method, Response, Headers, Delay). -/
structure Callback where
  target : String
  method : String
  delay : Int
  headers : List (String × String)
  response : String
deriving DecidableEq

/-- Stub definition, from the Go `ExpectedCall` struct (Path, Method,
StatusCode, Delay, Headers, OrderedBodies, Query, Response, Callbacks).
`OrderedBodies` is a `*[]string` in Go: `none` models a nil pointer. -/
structure ExpectedCall where
  path : String
  method : String
  statusCode : Int
  delay : Int
  headers : List (String × String)
  orderedBodies : Option (List String)
  query : List (String × String)
  response : String
  callbacks : List Callback
deriving DecidableEq

/-- Stub key of an `ExpectedCall`, from Go `ExpectedCall.ID`:
`fmt.Sprintf("%s:%s", c.Method, c.Path)`. -/
def ExpectedCall.ID (c : ExpectedCall) : String :=
  c.method ++ ":" ++ c.path

/-- Concrete call record, from the repository's `Call` struct as used by
`utils.go` and `client.go` (Path, Method, StatusCode, Delay, Headers, Query,
Response, Callbacks, Body). -/
structure Call where
  path : String
  method : String
  statusCode : Int
  delay : Int
  headers : List (String × String)
  query : List (String × String)
  response : String
  callbacks : List Callback
  body : String
deriving DecidableEq

/-- Stub key of a `Call`, format `METHOD:path` (spec §3, mirroring
`ExpectedCall.ID`). -/
def Call.ID (c : Call) : String :=
  c.method ++ ":" ++ c.path

/-- Embedding of `convertExpectedCallToCall` from `pkg/assured/utils.go`.
The Go function returns `(*Call, error)` but can panic: it dereferences
`*ec.OrderedBodies` without a nil check and indexes
`(*ec.OrderedBodies)[*bodyIndex]` without a bounds check.  The outer `Option`
models termination: `none` is a runtime panic, `some` a normal return of the
Go `(*Call, error)` pair. -/
def convertExpectedCallToCall (ec : ExpectedCall) (bodyIndex : Option Nat) :
    Option (Except String Call) :=
  let call : Call :=
    { path := ec.path
      method := ec.method
      statusCode := ec.statusCode
      delay := ec.delay
      headers := ec.headers
      query := ec.query
      response := ec.response
      callbacks := ec.callbacks
      body := "" }
  match bodyIndex with
  | none => some (Except.ok call)
  | some i =>
    match ec.orderedBodies with
    | none => none
    | some bodies =>
      if bodies.length > 0 then
        match bodies[i]? with
        | some b => some (Except.ok { call with body := b })
        | none => none
      else
        some (Except.error "body requested but no ordered bodies found")

/-- Embedding of `strings.Trim(path, "/")` as used in `client.go` line 95:
removes every leading and trailing slash character. -/
def trimSlashes (s : String) : String :=
  ⟨List.rdropWhile (fun c => c == '/') (s.data.dropWhile (fun c => c == '/'))⟩

/-- Stub key built from a method and an (already sanitized) path, format
`METHOD:path` (spec §3, `ExpectedCall.ID`). -/
def stubKey (method path : String) : String :=
  method ++ ":" ++ path

/-! Association-list model of the Go `map[string][]T` stores. -/

/-- Store data: a Go `map[string][]α` modelled as an association list. -/
abbrev StoreData (α : Type) : Type :=
  List (String × List α)

/-- Map lookup: `data[key]` distinguished from absence (`d[key], ok`). -/
def storeLookup {α : Type} (d : StoreData α) (k : String) : Option (List α) :=
  List.lookup k d

/-- Modelled from the spec: `Add`/`Append` of the Stub Store and Call Log
(spec §4.1/§4.2) — appends to the tail of the key's queue, creating the key
if absent. -/
def storeAdd {α : Type} (d : StoreData α) (k : String) (v : α) : StoreData α :=
  if (List.lookup k d).isSome then
    d.map (fun p => if p.1 = k then (p.1, p.2 ++ [v]) else p)
  else
    d ++ [(k, [v])]

/-- Modelled from the spec: `Next(key)` of the Stub Store (spec §4.1) —
head of the key's queue; `none` when the key is absent or its queue empty. -/
def storeNext {α : Type} (d : StoreData α) (k : String) : Option α :=
  match List.lookup k d with
  | some (v :: _) => some v
  | _ => none

/-- One round-robin step on a queue: head moves to the tail (spec §4.1
`Rotate`); a queue with at most one element is unchanged. -/
def rotateQueue {α : Type} : List α → List α
  | [] => []
  | x :: xs => xs ++ [x]

/-- Modelled from the spec: `Rotate(key)` of the Stub Store (spec §4.1) —
rotates the key's queue in place; no-op when the key is absent. -/
def storeRotate {α : Type} (d : StoreData α) (k : String) : StoreData α :=
  d.map (fun p => if p.1 = k then (p.1, rotateQueue p.2) else p)

/-- Modelled from the spec: `RemoveAll(key)`/`RemoveKey(key)` (spec
§4.1/§4.2) — deletes the key entirely. -/
def storeRemoveKey {α : Type} (d : StoreData α) (k : String) : StoreData α :=
  d.filter (fun p => decide (p.1 ≠ k))

/-- Modelled from the spec: `Get(key)` of the Call Log (spec §4.2) — the
key's list, empty when absent. -/
def storeGet {α : Type} (d : StoreData α) (k : String) : List α :=
  (List.lookup k d).getD []

/-- Header constant `AssuredCallbackKey`; its definition is not under the
sources, only its use — the exact string is irrelevant to the claims. -/
def AssuredCallbackKey : String := "Assured-Callback-Key"

/-- Lookup of a header value on a call record. -/
def headerGet (hs : List (String × String)) (k : String) : Option String :=
  List.lookup k hs

/-- Modelled from the spec: the engine state `AssuredEndpoints` (spec §2,
§4.3) — Stub Store, made-calls Call Log, callback Call Log, and the
call-tracking flag fixed at construction. -/
structure AssuredEndpoints where
  assuredCalls : StoreData ExpectedCall
  madeCalls : StoreData Call
  callbackCalls : StoreData Call
  trackMadeCalls : Bool

/-- Call record derived from a matched stub for the made-calls log
(spec §4.3 `When` step 5); fields copied as in `convertExpectedCallToCall`
with no body index. -/
def callOfExpected (ec : ExpectedCall) : Call :=
  { path := ec.path
    method := ec.method
    statusCode := ec.statusCode
    delay := ec.delay
    headers := ec.headers
    query := ec.query
    response := ec.response
    callbacks := ec.callbacks
    body := "" }

/-- Modelled from the spec: `When` (spec §4.3) — compute the stub key, take
the head stub (`NoStubError` with message "No assured calls" when none),
rotate the queue, and log the made call when tracking is enabled.  The
response delay and the fire-and-forget callback dispatch change no store and
are not modelled; the per-slot ordered-body cursor is outside the claims on
the engine.  On failure the state is returned unchanged. -/
def WhenEndpoint (e : AssuredEndpoints) (incoming : Call) :
    Except String ExpectedCall × AssuredEndpoints :=
  match storeNext e.assuredCalls incoming.ID with
  | none => (Except.error "No assured calls", e)
  | some stub =>
    (Except.ok stub,
      { e with
        assuredCalls := storeRotate e.assuredCalls incoming.ID
        madeCalls :=
          if e.trackMadeCalls then
            storeAdd e.madeCalls incoming.ID (callOfExpected stub)
          else e.madeCalls })

/-- State after `n` successive `When` calls with the same incoming call. -/
def whenN (e : AssuredEndpoints) (incoming : Call) : Nat → AssuredEndpoints
  | 0 => e
  | n + 1 => (WhenEndpoint (whenN e incoming n) incoming).2

/-- Result of the `(n+1)`-th successive `When` call. -/
def whenResult (e : AssuredEndpoints) (incoming : Call) (n : Nat) :
    Except String ExpectedCall :=
  (WhenEndpoint (whenN e incoming n) incoming).1

/-- Modelled from the spec: `Verify` (spec §4.3) — the made-calls list for
the key, or `TrackingDisabledError` ("Tracking made calls is disabled") when
call tracking was disabled at construction. -/
def VerifyEndpoint (e : AssuredEndpoints) (incoming : Call) :
    Except String (List Call) :=
  if e.trackMadeCalls then Except.ok (storeGet e.madeCalls incoming.ID)
  else Except.error "Tracking made calls is disabled"

/-- Modelled from the spec: `Clear` (spec §4.3) — with a callback
correlation key on the request, remove that key from the callback Call Log
only; otherwise remove the computed stub key from the Stub Store and the
made-calls Call Log. -/
def ClearEndpoint (e : AssuredEndpoints) (incoming : Call) : AssuredEndpoints :=
  match headerGet incoming.headers AssuredCallbackKey with
  | some key => { e with callbackCalls := storeRemoveKey e.callbackCalls key }
  | none =>
    { e with
      assuredCalls := storeRemoveKey e.assuredCalls incoming.ID
      madeCalls := storeRemoveKey e.madeCalls incoming.ID }

/-- Modelled from the spec: `ClearAll` (spec §4.3) — empties all three
stores unconditionally (each becomes an empty, present map). -/
def ClearAllEndpoint (e : AssuredEndpoints) : AssuredEndpoints :=
  { e with assuredCalls := [], madeCalls := [], callbackCalls := [] }

/-- Outbound stub-registration request built by `Client.Given`
(`client.go` lines 88–134): method (empty defaults to GET), sanitized
path, the `assured-status`/`assured-delay` headers when set, the call's
own headers, the callback correlation key header when callbacks exist,
and the response as the request body. -/
structure StubRequest where
  method : String
  path : String
  statusHeader : Option Int
  delayHeader : Option Int
  headers : List (String × String)
  callbackKeyHeader : Option String
  body : String
deriving DecidableEq

/-- Header constant `AssuredCallbackTarget`; the defining file is not under
the sources, only the uses — spec §6 names the header, the exact casing is
irrelevant to the claims. -/
def AssuredCallbackTarget : String := "Assured-Callback-Target"

/-- Header constant `AssuredCallbackDelay`; the defining file is not under
the sources, only the uses. -/
def AssuredCallbackDelay : String := "Assured-Callback-Delay"

/-- RFC 7230 token characters, as accepted by net/http's method validation
(`httpguts.IsTokenRune`): ASCII letters, digits, and the listed specials
(the two written by code point are the single quote, 39, and the backquote,
96). -/
def isTokenChar (c : Char) : Bool :=
  c.isAlpha || c.isDigit ||
  c == '!' || c == '#' || c == '$' || c == '%' || c == '&' || c.val == 39 ||
  c == '*' || c == '+' || c == '-' || c == '.' || c == '^' || c == '_' ||
  c.val == 96 || c == '|' || c == '~'

/-- Embedding of net/http's `validMethod`: non-empty and every character a
token character. -/
def validMethod (m : String) : Bool :=
  m.length > 0 && m.data.all isTokenChar

/-- Go `%q` quoting as it appears in `http.NewRequest`'s invalid-method
error, for the escapes its inputs here can need (double quote and
backslash; the further escapes of strconv.Quote do not arise for the
strings exercised). -/
def goQuote (s : String) : String :=
  "\"" ++ String.mk (s.data.foldr (fun c acc =>
    if c == '"' then '\\' :: '"' :: acc
    else if c == '\\' then '\\' :: '\\' :: acc
    else c :: acc) []) ++ "\""

/-- Method handling of Go's `http.NewRequest` (`client.go` lines 97, 118):
an empty method defaults to GET; a non-token method fails with
`net/http: invalid method %q`. -/
def newRequestMethod (m : String) : Except String String :=
  if m == "" then Except.ok "GET"
  else if validMethod m then Except.ok m
  else Except.error ("net/http: invalid method " ++ goQuote m)

/-- Go `http.Header.Set`: replaces the value under the key, adding the key
if absent (header-name canonicalization is not modelled: keys are compared
verbatim, and the modelled header constants use one fixed spelling). -/
def headerSet : List (String × String) → String → String → List (String × String)
  | [], k, v => [(k, v)]
  | p :: rest, k, v => if p.1 = k then (k, v) :: rest else p :: headerSet rest k v

/-- Outbound callback-registration request built by `Client.Given`
(`client.go` lines 112–131): the callback's method as accepted by
`http.NewRequest`, the final header map, and the callback's response as the
request body. -/
structure CallbackRequest where
  method : String
  headers : List (String × String)
  body : String
deriving DecidableEq

/-- Final header map of one callback-registration request, in the order
`client.go` lines 122–129 issue the `Set` calls: callback target, then the
generated callback key, then the delay header when positive, then the
callback's own headers — so a user header named like the callback-key
header overwrites the generated key. -/
def callbackRequestHeaders (freshKey : String) (cb : Callback) :
    List (String × String) :=
  cb.headers.foldl (fun acc p => headerSet acc p.1 p.2)
    (if cb.delay > 0 then
      headerSet
        (headerSet (headerSet [] AssuredCallbackTarget cb.target)
          AssuredCallbackKey freshKey)
        AssuredCallbackDelay (toString cb.delay)
     else
      headerSet (headerSet [] AssuredCallbackTarget cb.target)
        AssuredCallbackKey freshKey)

/-- Callback-request construction loop of `Client.Given` (`client.go`
lines 114–131), in the loop's own order per callback: the empty-target
check first ("cannot stub callback without target"), then
`http.NewRequest`'s method validation; the first offending callback
determines the error. -/
def buildCallbackRequests (freshKey : String) :
    List Callback → Except String (List CallbackRequest)
  | [] => Except.ok []
  | cb :: rest =>
    if cb.target == "" then Except.error "cannot stub callback without target"
    else
      match newRequestMethod cb.method with
      | Except.error e => Except.error e
      | Except.ok m =>
        match buildCallbackRequests freshKey rest with
        | Except.error e => Except.error e
        | Except.ok rs =>
          Except.ok
            ({ method := m
               headers := callbackRequestHeaders freshKey cb
               body := cb.response } :: rs)

/-- Embedding of the per-call body of `Client.Given` (`client.go` lines
88–143), as the requests it would send: the stub-registration request and
the callback-registration requests.  `freshKey` injects the
`uuid.NewString()` value generated once per call in the loop.  The stub
request is validated first (line 97), before the callback loop, and an
error means no request of this call is sent (sending happens only after
all requests are built).  HTTP transport failures and URL errors from
client options (host, port) are outside the model. -/
def clientGivenOne (freshKey : String) (call : Call) :
    Except String (StubRequest × List CallbackRequest) :=
  match newRequestMethod (if call.method == "" then "GET" else call.method) with
  | Except.error e => Except.error e
  | Except.ok m =>
    match buildCallbackRequests freshKey call.callbacks with
    | Except.error e => Except.error e
    | Except.ok cbs =>
      Except.ok
        ({ method := m
           path := trimSlashes call.path
           statusHeader := if call.statusCode ≠ 0 then some call.statusCode else none
           delayHeader := if call.delay > 0 then some call.delay else none
           headers := call.headers
           callbackKeyHeader := if call.callbacks.length > 0 then some freshKey else none
           body := call.response }, cbs)

/-- State after a whole sequence of `When` calls, in order. -/
def whenFold (e : AssuredEndpoints) (cs : List Call) : AssuredEndpoints :=
  cs.foldl (fun st c => (WhenEndpoint st c).2) e

/-! Concrete fixtures mirroring the repository's test data. -/

/-- Fixture: an incoming GET test/assured call. -/
def wCall : Call :=
  { path := "test/assured", method := "GET", statusCode := 200, delay := 0,
    headers := [], query := [], response := "", callbacks := [], body := "" }

/-- Fixture: first registered stub for GET test/assured. -/
def wStub1 : ExpectedCall :=
  { path := "test/assured", method := "GET", statusCode := 200, delay := 0,
    headers := [], orderedBodies := none, query := [],
    response := "A", callbacks := [] }

/-- Fixture: second registered stub for GET test/assured. -/
def wStub2 : ExpectedCall :=
  { path := "test/assured", method := "GET", statusCode := 200, delay := 0,
    headers := [], orderedBodies := none, query := [],
    response := "B", callbacks := [] }

/-- Fixture: engine state with two stubs queued under GET:test/assured and
call tracking enabled. -/
def wEndpoints : AssuredEndpoints :=
  { assuredCalls := [("GET:test/assured", [wStub1, wStub2])],
    madeCalls := [], callbackCalls := [], trackMadeCalls := true }

/-- Fixture: the same engine state with call tracking disabled. -/
def wEndpointsNoTrack : AssuredEndpoints :=
  { wEndpoints with trackMadeCalls := false }

/-- Fixture: an incoming call carrying the callback correlation key
"call-key". -/
def wCallbackCall : Call :=
  { path := "test/assured", method := "GET", statusCode := 200, delay := 0,
    headers := [(AssuredCallbackKey, "call-key")], query := [], response := "",
    callbacks := [], body := "" }

/-- Fixture: engine state with two callback-log keys and data under every
store. -/
def wClearEndpoints : AssuredEndpoints :=
  { assuredCalls := [("GET:test/assured", [wStub1])],
    madeCalls := [("GET:test/assured", [wCall])],
    callbackCalls := [("call-key", [wCall]), ("other-call-key", [wCall])],
    trackMadeCalls := true }

/-- Fixture: a call declaring one callback with a non-empty target. -/
def wGivenCall : Call :=
  { path := "x", method := "POST", statusCode := 0, delay := 0, headers := [],
    query := [], response := "ping",
    callbacks := [{ target := "http://callback.target", method := "POST",
                    delay := 0, headers := [], response := "pong" }],
    body := "" }

/-- Fixture: an invalid stub method (the test suite's quote character) with
a callback whose target is empty. -/
def wBadStubMethodCall : Call :=
  { path := "goat/path", method := "\"", statusCode := 0, delay := 0,
    headers := [], query := [], response := "",
    callbacks := [{ target := "", method := "POST", delay := 0, headers := [],
                    response := "" }],
    body := "" }

/-- Fixture: a valid stub method, a first callback with an invalid method,
and a second callback with an empty target. -/
def wBadCallbackMethodCall : Call :=
  { path := "x", method := "GET", statusCode := 0, delay := 0, headers := [],
    query := [], response := "",
    callbacks := [
      { target := "http://t1", method := "\"", delay := 0, headers := [],
        response := "" },
      { target := "", method := "POST", delay := 0, headers := [],
        response := "" }],
    body := "" }

/-- Fixture: one well-formed callback whose own headers name the
callback-key header. -/
def wOverrideKeyCall : Call :=
  { path := "x", method := "GET", statusCode := 0, delay := 0, headers := [],
    query := [], response := "",
    callbacks := [{ target := "http://t1", method := "POST", delay := 0,
                    headers := [(AssuredCallbackKey, "user-key")],
                    response := "" }],
    body := "" }

/-! Helper lemmas about the association-list stores. -/

theorem storeLookup_nil {α : Type} (k : String) :
    storeLookup ([] : StoreData α) k = none := rfl

theorem storeLookup_cons {α : Type} (k' : String) (q : List α) (d : StoreData α)
    (k : String) :
    storeLookup ((k', q) :: d) k = if k = k' then some q else storeLookup d k := by
  by_cases h : k = k'
  · subst h
    simp [storeLookup, List.lookup]
  · have hb : (k == k') = false := beq_eq_false_iff_ne.mpr h
    simp [storeLookup, List.lookup, hb, h]

theorem lookup_storeMapAt {α : Type} (f : List α → List α) (d : StoreData α)
    (k k' : String) :
    storeLookup (d.map (fun p => if p.1 = k then (p.1, f p.2) else p)) k' =
      if k' = k then Option.map f (storeLookup d k') else storeLookup d k' := by
  induction d with
  | nil =>
    by_cases h : k' = k <;> simp [storeLookup_nil, h]
  | cons p t ih =>
    obtain ⟨a, q⟩ := p
    simp only [List.map_cons]
    by_cases hak : a = k
    · subst hak
      by_cases hk : k' = a
      · subst hk
        simp [storeLookup_cons]
      · simp [storeLookup_cons, hk, ih]
    · by_cases hk : k' = a
      · have hne : ¬k' = k := by rw [hk]; exact hak
        subst hk
        simp [storeLookup_cons, hak, hne]
      · simp [storeLookup_cons, hak, hk, ih]

theorem lookup_storeRotate {α : Type} (d : StoreData α) (k k' : String) :
    storeLookup (storeRotate d k) k' =
      if k' = k then Option.map rotateQueue (storeLookup d k')
      else storeLookup d k' :=
  lookup_storeMapAt rotateQueue d k k'

theorem lookup_storeRemoveKey {α : Type} (d : StoreData α) (k k' : String) :
    storeLookup (storeRemoveKey d k) k' =
      if k' = k then none else storeLookup d k' := by
  induction d with
  | nil =>
    by_cases h : k' = k <;> simp [storeRemoveKey, storeLookup_nil, h]
  | cons p t ih =>
    obtain ⟨a, q⟩ := p
    by_cases hak : a = k
    · subst hak
      by_cases hk : k' = a
      · subst hk
        simp only [storeRemoveKey, List.filter_cons, decide_not, ne_eq,
          decide_True, Bool.not_true, Bool.false_eq_true, if_false]
        simpa [storeRemoveKey] using ih
      · simp only [storeRemoveKey, List.filter_cons, decide_not, ne_eq,
          decide_True, Bool.not_true, Bool.false_eq_true, if_false]
        have := ih
        simp only [storeRemoveKey, decide_not, ne_eq] at this
        simp [this, hk, storeLookup_cons]
    · by_cases hk : k' = a
      · have hne : ¬k' = k := by rw [hk]; exact hak
        subst hk
        simp only [storeRemoveKey, List.filter_cons, ne_eq, hak,
          not_false_iff, decide_True, if_true, storeLookup_cons]
        have := ih
        simp only [storeRemoveKey, decide_not, ne_eq] at this
        simp [this, hne]
      · simp only [storeRemoveKey, List.filter_cons, ne_eq, hak,
          not_false_iff, decide_True, if_true, storeLookup_cons]
        have := ih
        simp only [storeRemoveKey, decide_not, ne_eq] at this
        simp [this, hk]

/-! Path sanitization lemmas. -/

theorem dropWhile_rdropWhile_fixed {α : Type} (p : α → Bool) (m : List α)
    (hmm : List.dropWhile p m = m) :
    List.dropWhile p (List.rdropWhile p m) = List.rdropWhile p m := by
  rcases ht : List.rdropWhile p m with _ | ⟨a, t'⟩
  · simp
  · obtain ⟨r, hr⟩ := List.rdropWhile_prefix p m
    rw [ht] at hr
    have hm' : m = a :: (t' ++ r) := by
      rw [← hr]
      simp
    rw [hm', List.dropWhile_cons] at hmm
    have hpa : ¬p a := by
      intro hpa
      rw [if_pos hpa] at hmm
      have h1 := (List.dropWhile_sublist (l := t' ++ r) p).length_le
      rw [hmm] at h1
      simp at h1
    rw [List.dropWhile_cons]
    simp [hpa]

theorem trimList_idem {α : Type} (p : α → Bool) (l : List α) :
    List.rdropWhile p (List.dropWhile p (List.rdropWhile p (List.dropWhile p l))) =
      List.rdropWhile p (List.dropWhile p l) := by
  rw [dropWhile_rdropWhile_fixed p (List.dropWhile p l) (List.dropWhile_idempotent p l)]
  exact List.rdropWhile_idempotent p (List.dropWhile p l)

theorem trimSlashes_idem (s : String) : trimSlashes (trimSlashes s) = trimSlashes s := by
  unfold trimSlashes
  exact congrArg String.mk (trimList_idem (fun c => c == '/') s.data)

/-- C8: path normalization trims leading and trailing slashes before the
stub key is computed, so a stub registered at "///a/b///" and a `When` at
"a/b" share one key, "a/b/" and "a/b" give the same METHOD:path key, and
trimming an already-trimmed path leaves the key unchanged (idempotence). -/
theorem path_sanitization_key :
    (∀ m : String, stubKey m (trimSlashes "///a/b///") = stubKey m "a/b") ∧
    (∀ m : String, stubKey m (trimSlashes "a/b/") = stubKey m (trimSlashes "a/b")) ∧
    (∀ s : String, trimSlashes (trimSlashes s) = trimSlashes s) ∧
    (∀ m s : String, stubKey m (trimSlashes (trimSlashes s)) = stubKey m (trimSlashes s)) := by
  refine ⟨?_, ?_, trimSlashes_idem, ?_⟩
  · intro m
    have h : trimSlashes "///a/b///" = "a/b" := by decide
    rw [h]
  · intro m
    have h1 : trimSlashes "a/b/" = "a/b" := by decide
    have h2 : trimSlashes "a/b" = "a/b" := by decide
    rw [h1, h2]
  · intro m s
    rw [trimSlashes_idem]

/-- C10: with a nil body index `convertExpectedCallToCall` always succeeds,
copies every field of the stub into the returned call, and never consults
the ordered-body list. -/
theorem convert_nilIndex_copies :
    ∀ ec : ExpectedCall,
      (convertExpectedCallToCall ec none =
        some (Except.ok
          { path := ec.path, method := ec.method, statusCode := ec.statusCode,
            delay := ec.delay, headers := ec.headers, query := ec.query,
            response := ec.response, callbacks := ec.callbacks, body := "" })) ∧
      ∀ ob : Option (List String),
        convertExpectedCallToCall { ec with orderedBodies := ob } none =
          convertExpectedCallToCall ec none :=
  fun _ => ⟨rfl, fun _ => rfl⟩

/-- C3, counterexample: `convertExpectedCallToCall` is not total on a
non-nil body index — with an absent (nil) ordered-body list it panics on the
nil dereference instead of returning the configuration error, and with an
index past the end of a non-empty list it panics on the out-of-range
access. -/
theorem convert_total_counterexample :
    (convertExpectedCallToCall
      { path := "test/assured", method := "GET", statusCode := 200, delay := 0,
        headers := [], orderedBodies := none, query := [], response := "",
        callbacks := [] } (some 0) = none) ∧
    (convertExpectedCallToCall
      { path := "test/assured", method := "GET", statusCode := 200, delay := 0,
        headers := [], orderedBodies := some ["a"], query := [], response := "",
        callbacks := [] } (some 1) = none) :=
  ⟨rfl, rfl⟩

/-- C3, amended: on a non-nil body index `convertExpectedCallToCall` panics
when the ordered-body list is absent; with a present list it returns the
configuration error "body requested but no ordered bodies found" when the
list is empty, returns the call with the i-th ordered body when the index is
in range, and panics when the index is past the end of a non-empty list. -/
theorem convert_orderedBodies_amended (ec : ExpectedCall) (i : Nat) :
    (ec.orderedBodies = none → convertExpectedCallToCall ec (some i) = none) ∧
    ∀ bodies : List String, ec.orderedBodies = some bodies →
      (bodies = [] →
        convertExpectedCallToCall ec (some i) =
          some (Except.error "body requested but no ordered bodies found")) ∧
      (∀ h : i < bodies.length,
        convertExpectedCallToCall ec (some i) =
          some (Except.ok
            { path := ec.path, method := ec.method, statusCode := ec.statusCode,
              delay := ec.delay, headers := ec.headers, query := ec.query,
              response := ec.response, callbacks := ec.callbacks,
              body := bodies.get ⟨i, h⟩ })) ∧
      (bodies ≠ [] → bodies.length ≤ i →
        convertExpectedCallToCall ec (some i) = none) := by
  constructor
  · intro h
    simp [convertExpectedCallToCall, h]
  · intro bodies hb
    refine ⟨?_, ?_, ?_⟩
    · intro hnil
      subst hnil
      simp [convertExpectedCallToCall, hb]
    · intro h
      have hpos : bodies.length > 0 := Nat.lt_of_le_of_lt (Nat.zero_le i) h
      have hget : bodies[i]? = some (bodies.get ⟨i, h⟩) := by
        simp [List.getElem?_eq_getElem h]

      simp [convertExpectedCallToCall, hb, hpos, hget]
    · intro hne hle
      have hpos : bodies.length > 0 := List.length_pos.mpr hne
      have hget : bodies[i]? = none := by
        simp [hle]
      simp [convertExpectedCallToCall, hb, hpos, hget]

/-- C3, witness for the amended theorem: with ordered bodies ["a", "b"] and
index 1 the conversion returns the call with body "b". -/
theorem convert_orderedBodies_amended_witness :
    convertExpectedCallToCall
      { path := "x", method := "GET", statusCode := 200, delay := 0, headers := [],
        orderedBodies := some ["a", "b"], query := [], response := "",
        callbacks := [] } (some 1) =
      some (Except.ok
        { path := "x", method := "GET", statusCode := 200, delay := 0, headers := [],
          query := [], response := "", callbacks := [], body := "b" }) := by
  have h := (convert_orderedBodies_amended
    { path := "x", method := "GET", statusCode := 200, delay := 0, headers := [],
      orderedBodies := some ["a", "b"], query := [], response := "",
      callbacks := [] } 1).2 ["a", "b"] rfl
  exact h.2.1 (by decide)

/-- C4: evaluating `Client.Given` on a call with an empty method — the code
defaults the method to GET and builds the registration request, instead of
failing with the "cannot stub call without Method" validation error that the
repository's own `TestClientGivenMethodFailure` expects. -/
theorem given_emptyMethod_defaults :
    clientGivenOne "cb-key-1"
      { path := "NoMethodMan", method := "", statusCode := 0, delay := 0,
        headers := [], query := [], response := "", callbacks := [], body := "" } =
      Except.ok
        ({ method := "GET", path := "NoMethodMan", statusHeader := none,
           delayHeader := none, headers := [], callbackKeyHeader := none,
           body := "" }, []) := by
  rfl

/-! Lemmas about the matching engine. -/

theorem rotateQueue_eq_rotate {α : Type} (l : List α) : rotateQueue l = l.rotate 1 := by
  cases l with
  | nil => rfl
  | cons a t =>
    rw [rotateQueue, List.rotate_cons_succ, List.rotate_zero]

theorem whenEndpoint_track (e : AssuredEndpoints) (incoming : Call) :
    ((WhenEndpoint e incoming).2).trackMadeCalls = e.trackMadeCalls := by
  unfold WhenEndpoint
  cases h : storeNext e.assuredCalls incoming.ID with
  | none => rfl
  | some stub => rfl

theorem whenEndpoint_cons (e : AssuredEndpoints) (incoming : Call)
    (a : ExpectedCall) (q : List ExpectedCall)
    (hq : storeLookup e.assuredCalls incoming.ID = some (a :: q)) :
    (WhenEndpoint e incoming).1 = Except.ok a ∧
    ((WhenEndpoint e incoming).2).assuredCalls =
      storeRotate e.assuredCalls incoming.ID := by
  have hnext : storeNext e.assuredCalls incoming.ID = some a := by
    unfold storeNext
    unfold storeLookup at hq
    rw [hq]
  unfold WhenEndpoint
  rw [hnext]
  exact ⟨rfl, rfl⟩

theorem whenN_lookup (e : AssuredEndpoints) (incoming : Call)
    (q : List ExpectedCall)
    (hq : storeLookup e.assuredCalls incoming.ID = some q) :
    ∀ i : Nat,
      storeLookup (whenN e incoming i).assuredCalls incoming.ID =
        some (q.rotate i) := by
  intro i
  induction i with
  | zero => simpa [whenN, List.rotate_zero] using hq
  | succ n ih =>
    show storeLookup
      ((WhenEndpoint (whenN e incoming n) incoming).2).assuredCalls incoming.ID = _
    rcases hrot : q.rotate n with _ | ⟨a, t⟩
    · have hqnil : q = [] := by simpa using congrArg List.length hrot
      rw [hrot] at ih
      have hnext : storeNext (whenN e incoming n).assuredCalls incoming.ID = none := by
        unfold storeNext
        unfold storeLookup at ih
        rw [ih]
      unfold WhenEndpoint
      rw [hnext]
      rw [ih, hqnil]
      simp
    · have h1 := whenEndpoint_cons (whenN e incoming n) incoming a t (by rw [ih, hrot])
      rw [h1.2, lookup_storeRotate]
      rw [if_pos rfl, ih]
      show some (rotateQueue (q.rotate n)) = some (q.rotate (n + 1))
      rw [rotateQueue_eq_rotate, List.rotate_rotate]

theorem whenResult_get (e : AssuredEndpoints) (incoming : Call)
    (q : List ExpectedCall)
    (hq : storeLookup e.assuredCalls incoming.ID = some q)
    (i : Nat) (h : i < q.length) :
    whenResult e incoming i = Except.ok (q.get ⟨i, h⟩) := by
  have hlk := whenN_lookup e incoming q hq i
  rcases hrot : q.rotate i with _ | ⟨a, t⟩
  · exfalso
    have hqnil : q = [] := by simpa using congrArg List.length hrot
    subst hqnil
    simp at h
  · have h1 := whenEndpoint_cons (whenN e incoming i) incoming a t (by rw [hlk, hrot])
    unfold whenResult
    rw [h1.1]
    have hh : (q.rotate i).head? = some a := by rw [hrot]; rfl
    rw [List.head?_rotate h] at hh
    rw [List.getElem?_eq_getElem h] at hh
    have ha : q.get ⟨i, h⟩ = a := by
      have := Option.some_inj.mp hh
      simpa [List.get_eq_getElem] using this
    rw [ha]

/-- C1: for a stub key holding queue q (N = q.length ≥ 2), the i-th of N
consecutive `When` calls returns the i-th registered stub, after N calls the
queue is back to q (so the (N+1)-th call restarts the same sequence), and a
single `When` moves the head stub to the tail preserving the relative order
of the rest. -/
theorem when_roundRobin (e : AssuredEndpoints) (incoming : Call)
    (q : List ExpectedCall)
    (hq : storeLookup e.assuredCalls incoming.ID = some q)
    (hN : 2 ≤ q.length) :
    (∀ i (h : i < q.length),
      whenResult e incoming i = Except.ok (q.get ⟨i, h⟩)) ∧
    storeLookup (whenN e incoming q.length).assuredCalls incoming.ID = some q ∧
    whenResult e incoming q.length = whenResult e incoming 0 ∧
    storeLookup (whenN e incoming 1).assuredCalls incoming.ID =
      some (q.drop 1 ++ q.take 1) := by
  have hcycle :
      storeLookup (whenN e incoming q.length).assuredCalls incoming.ID = some q := by
    have h := whenN_lookup e incoming q hq q.length
    rwa [List.rotate_length] at h
  obtain ⟨a, t, hq0⟩ : ∃ a t, q = a :: t := by
    cases q with
    | nil => simp at hN
    | cons a t => exact ⟨a, t, rfl⟩
  refine ⟨fun i h => whenResult_get e incoming q hq i h, hcycle, ?_, ?_⟩
  · have hA := whenEndpoint_cons (whenN e incoming q.length) incoming a t
      (by rw [hcycle, hq0])
    have hB := whenEndpoint_cons e incoming a t (by rw [hq, hq0])
    show (WhenEndpoint (whenN e incoming q.length) incoming).1 =
      (WhenEndpoint (whenN e incoming 0) incoming).1
    rw [hA.1]
    show Except.ok a = (WhenEndpoint e incoming).1
    rw [hB.1]
  · have h1 := whenN_lookup e incoming q hq 1
    rw [h1]
    have hle : 1 ≤ q.length := by omega
    rw [List.rotate_eq_drop_append_take hle]

/-- C1, witness: with two stubs registered under GET:test/assured, the first
`When` serves the first stub, the second serves the second, and the third
repeats the first. -/
theorem when_roundRobin_witness :
    whenResult wEndpoints wCall 0 = Except.ok wStub1 ∧
    whenResult wEndpoints wCall 1 = Except.ok wStub2 ∧
    whenResult wEndpoints wCall 2 = whenResult wEndpoints wCall 0 := by
  have h := when_roundRobin wEndpoints wCall [wStub1, wStub2] (by decide) (by decide)
  exact ⟨h.1 0 (by decide), h.1 1 (by decide), h.2.2.1⟩

/-- C2: `When` on a key that is absent or has an empty queue fails with the
`NoStubError` message "No assured calls" and returns the engine state
unchanged — Stub Store, made-calls log and callback log untouched. -/
theorem when_noStub (e : AssuredEndpoints) (incoming : Call)
    (h : storeLookup e.assuredCalls incoming.ID = none ∨
         storeLookup e.assuredCalls incoming.ID = some []) :
    WhenEndpoint e incoming = (Except.error "No assured calls", e) := by
  have hnext : storeNext e.assuredCalls incoming.ID = none := by
    unfold storeNext
    unfold storeLookup at h
    rcases h with h | h <;> rw [h]
  unfold WhenEndpoint
  rw [hnext]

/-- C2, witness: `When` against an empty engine fails with "No assured
calls" and leaves the empty state intact. -/
theorem when_noStub_witness :
    WhenEndpoint ⟨[], [], [], true⟩ wCall =
      (Except.error "No assured calls", ⟨[], [], [], true⟩) :=
  when_noStub ⟨[], [], [], true⟩ wCall (Or.inl rfl)

/-- C5: `Clear` with a callback correlation key removes exactly that key
from the callback Call Log, leaving the Stub Store, the made-calls log and
every other callback key unchanged; without one it removes exactly the
computed stub key from the Stub Store and the made-calls log, leaving the
callback log and every other key unchanged. -/
theorem clear_frame (e : AssuredEndpoints) (incoming : Call) :
    (∀ ck : String, headerGet incoming.headers AssuredCallbackKey = some ck →
      (ClearEndpoint e incoming).assuredCalls = e.assuredCalls ∧
      (ClearEndpoint e incoming).madeCalls = e.madeCalls ∧
      storeLookup (ClearEndpoint e incoming).callbackCalls ck = none ∧
      ∀ k : String, k ≠ ck →
        storeLookup (ClearEndpoint e incoming).callbackCalls k =
          storeLookup e.callbackCalls k) ∧
    (headerGet incoming.headers AssuredCallbackKey = none →
      (ClearEndpoint e incoming).callbackCalls = e.callbackCalls ∧
      storeLookup (ClearEndpoint e incoming).assuredCalls incoming.ID = none ∧
      storeLookup (ClearEndpoint e incoming).madeCalls incoming.ID = none ∧
      ∀ k : String, k ≠ incoming.ID →
        storeLookup (ClearEndpoint e incoming).assuredCalls k =
          storeLookup e.assuredCalls k ∧
        storeLookup (ClearEndpoint e incoming).madeCalls k =
          storeLookup e.madeCalls k) := by
  constructor
  · intro ck hck
    have hC : ClearEndpoint e incoming =
        { e with callbackCalls := storeRemoveKey e.callbackCalls ck } := by
      unfold ClearEndpoint
      rw [hck]
    rw [hC]
    refine ⟨rfl, rfl, ?_, ?_⟩
    · show storeLookup (storeRemoveKey e.callbackCalls ck) ck = none
      rw [lookup_storeRemoveKey, if_pos rfl]
    · intro k hk
      show storeLookup (storeRemoveKey e.callbackCalls ck) k = _
      rw [lookup_storeRemoveKey, if_neg hk]
  · intro hnone
    have hC : ClearEndpoint e incoming =
        { e with
          assuredCalls := storeRemoveKey e.assuredCalls incoming.ID
          madeCalls := storeRemoveKey e.madeCalls incoming.ID } := by
      unfold ClearEndpoint
      rw [hnone]
    rw [hC]
    refine ⟨rfl, ?_, ?_, ?_⟩
    · show storeLookup (storeRemoveKey e.assuredCalls incoming.ID) incoming.ID = none
      rw [lookup_storeRemoveKey, if_pos rfl]
    · show storeLookup (storeRemoveKey e.madeCalls incoming.ID) incoming.ID = none
      rw [lookup_storeRemoveKey, if_pos rfl]
    · intro k hk
      constructor
      · show storeLookup (storeRemoveKey e.assuredCalls incoming.ID) k = _
        rw [lookup_storeRemoveKey, if_neg hk]
      · show storeLookup (storeRemoveKey e.madeCalls incoming.ID) k = _
        rw [lookup_storeRemoveKey, if_neg hk]

/-- C5, witness: clearing with callback key "call-key" empties that key,
keeps "other-call-key", and leaves the Stub Store untouched. -/
theorem clear_frame_witness :
    storeLookup (ClearEndpoint wClearEndpoints wCallbackCall).callbackCalls
      "call-key" = none ∧
    (ClearEndpoint wClearEndpoints wCallbackCall).assuredCalls =
      wClearEndpoints.assuredCalls ∧
    storeLookup (ClearEndpoint wClearEndpoints wCallbackCall).callbackCalls
      "other-call-key" = storeLookup wClearEndpoints.callbackCalls "other-call-key" := by
  have h := (clear_frame wClearEndpoints wCallbackCall).1 "call-key" rfl
  exact ⟨h.2.2.1, h.1, h.2.2.2 "other-call-key" (by decide)⟩

/-- C6: `ClearAll` unconditionally empties the Stub Store, the made-calls
Call Log and the callback Call Log — each becomes the empty (present)
collection. -/
theorem clearAll_empties :
    ∀ e : AssuredEndpoints,
      (ClearAllEndpoint e).assuredCalls = [] ∧
      (ClearAllEndpoint e).madeCalls = [] ∧
      (ClearAllEndpoint e).callbackCalls = [] :=
  fun _ => ⟨rfl, rfl, rfl⟩

theorem whenFold_track (e : AssuredEndpoints) (cs : List Call) :
    (whenFold e cs).trackMadeCalls = e.trackMadeCalls := by
  induction cs generalizing e with
  | nil => rfl
  | cons c t ih =>
    show (whenFold ((WhenEndpoint e c).2) t).trackMadeCalls = _
    rw [ih]
    exact whenEndpoint_track e c

/-- C7: with call tracking disabled at construction, `Verify` fails with the
`TrackingDisabledError` message "Tracking made calls is disabled" no matter
how many `When` calls were processed — it never silently returns an empty
result. -/
theorem verify_trackingDisabled (e : AssuredEndpoints) (cs : List Call)
    (incoming : Call) (h : e.trackMadeCalls = false) :
    VerifyEndpoint (whenFold e cs) incoming =
      Except.error "Tracking made calls is disabled" := by
  have ht : (whenFold e cs).trackMadeCalls = false := by
    rw [whenFold_track, h]
  unfold VerifyEndpoint
  rw [ht]
  simp

/-- C7, witness: after two `When` calls against a tracking-disabled engine,
`Verify` still fails with "Tracking made calls is disabled". -/
theorem verify_trackingDisabled_witness :
    VerifyEndpoint (whenFold wEndpointsNoTrack [wCall, wCall]) wCall =
      Except.error "Tracking made calls is disabled" :=
  verify_trackingDisabled wEndpointsNoTrack [wCall, wCall] wCall rfl

theorem lookup_pair_cons {β : Type} (k' : String) (v : β)
    (d : List (String × β)) (k : String) :
    List.lookup k ((k', v) :: d) = if k = k' then some v else List.lookup k d := by
  by_cases h : k = k'
  · subst h
    simp [List.lookup]
  · have hb : (k == k') = false := beq_eq_false_iff_ne.mpr h
    simp [List.lookup, hb, h]

theorem lookup_headerSet (hs : List (String × String)) (k1 v k0 : String) :
    List.lookup k0 (headerSet hs k1 v) =
      if k0 = k1 then some v else List.lookup k0 hs := by
  induction hs with
  | nil =>
    show List.lookup k0 [(k1, v)] = _
    rw [lookup_pair_cons]
  | cons p rest ih =>
    obtain ⟨a, b⟩ := p
    show List.lookup k0
      (if a = k1 then (k1, v) :: rest else (a, b) :: headerSet rest k1 v) = _
    by_cases ha : a = k1
    · rw [if_pos ha, lookup_pair_cons, lookup_pair_cons]
      subst ha
      by_cases hk : k0 = a <;> simp [hk]
    · rw [if_neg ha, lookup_pair_cons, ih, lookup_pair_cons]
      by_cases hk : k0 = a
      · subst hk
        rw [if_pos rfl, if_pos rfl, if_neg ha]
      · rw [if_neg hk, if_neg hk]

theorem lookup_foldl_headerSet (hs0 : List (String × String))
    (ps : List (String × String)) (k0 : String)
    (h : ∀ p ∈ ps, p.1 ≠ k0) :
    List.lookup k0 (ps.foldl (fun acc p => headerSet acc p.1 p.2) hs0) =
      List.lookup k0 hs0 := by
  induction ps generalizing hs0 with
  | nil => rfl
  | cons p rest ih =>
    show List.lookup k0
      (rest.foldl (fun acc q => headerSet acc q.1 q.2) (headerSet hs0 p.1 p.2)) = _
    rw [ih (headerSet hs0 p.1 p.2) (fun q hq => h q (List.mem_cons_of_mem p hq))]
    rw [lookup_headerSet]
    have hp := h p (List.mem_cons_self p rest)
    rw [if_neg (fun he => hp he.symm)]

theorem callbackRequestHeaders_key (k : String) (cb : Callback)
    (h : ∀ p ∈ cb.headers, p.1 ≠ AssuredCallbackKey) :
    List.lookup AssuredCallbackKey (callbackRequestHeaders k cb) = some k := by
  unfold callbackRequestHeaders
  rw [lookup_foldl_headerSet _ _ _ h]
  by_cases hd : cb.delay > 0
  · rw [if_pos hd, lookup_headerSet,
      if_neg (by decide : ¬AssuredCallbackKey = AssuredCallbackDelay),
      lookup_headerSet, if_pos rfl]
  · rw [if_neg hd, lookup_headerSet, if_pos rfl]

theorem newRequestMethod_valid (m : String) (h : validMethod m = true) :
    newRequestMethod m = Except.ok m := by
  have hne : m ≠ "" := by
    intro he
    subst he
    exact absurd h (by decide)
  have hbeq : (m == "") = false := beq_eq_false_iff_ne.mpr hne
  unfold newRequestMethod
  rw [hbeq]
  simp [h]

theorem newRequestMethod_ok (s : String)
    (h : s = "" ∨ validMethod s = true) :
    ∃ m, newRequestMethod s = Except.ok m := by
  by_cases he : s = ""
  · subst he
    exact ⟨"GET", rfl⟩
  · have hbeq : (s == "") = false := beq_eq_false_iff_ne.mpr he
    rcases h with h | h
    · exact absurd h he
    · exact ⟨s, by simp [newRequestMethod, hbeq, h]⟩

theorem buildCallbackRequests_emptyTarget (k : String) (l : List Callback)
    (hmethods : ∀ cb ∈ l, cb.method = "" ∨ validMethod cb.method = true)
    (h : ∃ cb ∈ l, cb.target = "") :
    buildCallbackRequests k l =
      Except.error "cannot stub callback without target" := by
  induction l with
  | nil => simp at h
  | cons cb rest ih =>
    by_cases hcb : cb.target = ""
    · have hbeq : (cb.target == "") = true := by simp [hcb]
      simp [buildCallbackRequests, hbeq]
    · have hbeq : (cb.target == "") = false := beq_eq_false_iff_ne.mpr hcb
      obtain ⟨c, hc, hct⟩ := h
      rcases List.mem_cons.mp hc with hc' | hc'
      · exact absurd (hc' ▸ hct) hcb
      · obtain ⟨m, hmok⟩ :=
          newRequestMethod_ok cb.method (hmethods cb (List.mem_cons_self cb rest))
        have hrest := ih
          (fun c' hc'' => hmethods c' (List.mem_cons_of_mem cb hc'')) ⟨c, hc', hct⟩
        simp [buildCallbackRequests, hbeq, hmok, hrest]

theorem buildCallbackRequests_ok (k : String) (l : List Callback)
    (h : ∀ cb ∈ l, cb.target ≠ "" ∧ (cb.method = "" ∨ validMethod cb.method = true)) :
    ∃ rs, buildCallbackRequests k l = Except.ok rs ∧
      rs.length = l.length ∧
      ∀ r ∈ rs, ∃ cb ∈ l, r.headers = callbackRequestHeaders k cb := by
  induction l with
  | nil => exact ⟨[], rfl, rfl, by simp⟩
  | cons cb rest ih =>
    obtain ⟨ht, hm⟩ := h cb (List.mem_cons_self cb rest)
    have hbeq : (cb.target == "") = false := beq_eq_false_iff_ne.mpr ht
    obtain ⟨m, hmok⟩ := newRequestMethod_ok cb.method hm
    obtain ⟨rs, hrs, hlen, hmem⟩ := ih (fun c hc => h c (List.mem_cons_of_mem cb hc))
    refine ⟨{ method := m, headers := callbackRequestHeaders k cb,
              body := cb.response } :: rs, ?_, ?_, ?_⟩
    · simp [buildCallbackRequests, hbeq, hmok, hrs]
    · simp [hlen]
    · intro r hr
      rcases List.mem_cons.mp hr with hr' | hr'
      · exact ⟨cb, List.mem_cons_self cb rest, by rw [hr']⟩
      · obtain ⟨c, hc, hch⟩ := hmem r hr'
        exact ⟨c, List.mem_cons_of_mem cb hc, hch⟩

/-- C9, counterexample: an invalid stub method or an invalid callback
method makes `Given` fail with http.NewRequest's invalid-method error
instead of "cannot stub callback without target" even though a callback
with an empty target is declared; and a callback whose own headers name the
callback-key header (client.go sets the generated key at line 123 before
the user-header loop at lines 127–129) ends up registered under the user's
value, not the generated key. -/
theorem given_callbacks_key_counterexample :
    (clientGivenOne "key-1" wBadStubMethodCall =
        Except.error "net/http: invalid method \"\\\"\"" ∧
      clientGivenOne "key-1" wBadStubMethodCall ≠
        Except.error "cannot stub callback without target") ∧
    (clientGivenOne "key-1" wBadCallbackMethodCall =
        Except.error "net/http: invalid method \"\\\"\"" ∧
      clientGivenOne "key-1" wBadCallbackMethodCall ≠
        Except.error "cannot stub callback without target") ∧
    (clientGivenOne "key-1" wOverrideKeyCall =
        Except.ok
          ({ method := "GET", path := "x", statusHeader := none,
             delayHeader := none, headers := [],
             callbackKeyHeader := some "key-1", body := "" },
           [{ method := "POST",
              headers := [(AssuredCallbackTarget, "http://t1"),
                          (AssuredCallbackKey, "user-key")],
              body := "" }]) ∧
      List.lookup AssuredCallbackKey
        [(AssuredCallbackTarget, "http://t1"), (AssuredCallbackKey, "user-key")] =
          some "user-key") := by
  refine ⟨⟨by decide, by decide⟩, ⟨by decide, by decide⟩, by decide, by decide⟩

/-- C9, amended: for a `Client.Given` call declaring callbacks, with a
stub method that (after empty-defaulting to GET) is a valid HTTP token —
when every callback method is empty or a valid token and some callback has
an empty target, the call fails with "cannot stub callback without target"
and no request is sent (an invalid method otherwise preempts with the
net/http error); when every callback has a non-empty target and an
empty-or-valid method, one fresh key is attached to the stub registration
and set on every callback registration, where it is the final callback-key
header value provided no callback's own headers name that header. -/
theorem given_callbacks_key_amended (freshKey : String) (call : Call)
    (hne : call.callbacks ≠ [])
    (hsm : validMethod (if call.method == "" then "GET" else call.method) = true) :
    ((∀ cb ∈ call.callbacks, cb.method = "" ∨ validMethod cb.method = true) →
      (∃ cb ∈ call.callbacks, cb.target = "") →
      clientGivenOne freshKey call =
        Except.error "cannot stub callback without target") ∧
    ((∀ cb ∈ call.callbacks,
        cb.target ≠ "" ∧ (cb.method = "" ∨ validMethod cb.method = true)) →
      ∃ sr cbs,
        clientGivenOne freshKey call = Except.ok (sr, cbs) ∧
        sr.callbackKeyHeader = some freshKey ∧
        cbs.length = call.callbacks.length ∧
        ((∀ cb ∈ call.callbacks, ∀ p ∈ cb.headers, p.1 ≠ AssuredCallbackKey) →
          ∀ r ∈ cbs,
            List.lookup AssuredCallbackKey r.headers = some freshKey)) := by
  have hsok : newRequestMethod (if call.method == "" then "GET" else call.method) =
      Except.ok (if call.method == "" then "GET" else call.method) :=
    newRequestMethod_valid _ hsm
  constructor
  · intro hmethods h
    have hb := buildCallbackRequests_emptyTarget freshKey call.callbacks hmethods h
    unfold clientGivenOne
    rw [hsok, hb]
  · intro h
    obtain ⟨rs, hrs, hlen, hmem⟩ := buildCallbackRequests_ok freshKey call.callbacks h
    have hpos : call.callbacks.length > 0 := List.length_pos.mpr hne
    refine ⟨{ method := if call.method == "" then "GET" else call.method,
              path := trimSlashes call.path,
              statusHeader := if call.statusCode ≠ 0 then some call.statusCode else none,
              delayHeader := if call.delay > 0 then some call.delay else none,
              headers := call.headers,
              callbackKeyHeader := if call.callbacks.length > 0 then some freshKey else none,
              body := call.response }, rs, ?_, ?_, hlen, ?_⟩
    · unfold clientGivenOne
      rw [hsok, hrs]
    · simp [hpos]
    · intro hover r hr
      obtain ⟨cb, hcb, hch⟩ := hmem r hr
      rw [hch]
      exact callbackRequestHeaders_key freshKey cb (hover cb hcb)

/-- C9, witness for the amended theorem: a call with one well-formed
callback registers the stub and the callback under the same generated
key. -/
theorem given_callbacks_key_amended_witness :
    ∃ sr cbs,
      clientGivenOne "key-123" wGivenCall = Except.ok (sr, cbs) ∧
      sr.callbackKeyHeader = some "key-123" ∧
      cbs.length = wGivenCall.callbacks.length ∧
      ∀ r ∈ cbs, List.lookup AssuredCallbackKey r.headers = some "key-123" := by
  obtain ⟨sr, cbs, h1, h2, h3, h4⟩ :=
    (given_callbacks_key_amended "key-123" wGivenCall (by decide) (by decide)).2
      (by decide)
  exact ⟨sr, cbs, h1, h2, h3, h4 (by decide)⟩

end GoRestAssured
